import Mathlib

/-!
Shallow embedding of `sign.go` from the bchutil repository (package `bchutil`):
the BIP143-style signature-hash computation `calcBip143SignatureHash` and the
signature producer `RawTxInSignature`.

Modelling conventions:
* Byte sequences (`[]byte`, `chainhash.Hash`) are `List Nat`, one `Nat` per byte.
* Go `uint32` fields are `Nat`; Go `int32` / `int64` fields are `Int`, and the
  Go conversions `uint32(x)` / `uint64(x)` are taken modulo `2^32` / `2^64`.
* The double hash `chainhash.DoubleHashB` (SHA-256 applied twice) is an external
  cryptographic collaborator; every function is parameterised by an arbitrary
  function `dh : List Nat → List Nat` standing for it.
* The ECDSA signing operation `key.Sign` followed by `signature.Serialize` is an
  external collaborator as well; `RawTxInSignature` is parameterised by a
  fallible `sign : List Nat → Option (List Nat)` returning the serialized
  signature bytes, `none` on failure.
* A Go function that can return nil, return an error, or panic is embedded with
  the result type `GoResult`, whose constructors record exactly which of those
  happened.
-/

/-- Result of a Go function call, distinguishing a normal return, a bare `nil`
return without an error value, a returned error (with `nil` payload), and a
runtime panic (such as an out-of-range slice index). -/
inductive GoResult (α : Type) where
  | ok : α → GoResult α
  | nilNoError : GoResult α
  | err : GoResult α
  | goPanic : GoResult α
  deriving DecidableEq, Repr

/-- `wire.OutPoint`: 32-byte previous transaction hash and a `uint32` output index. -/
structure OutPoint where
  hash : List Nat
  index : Nat
  deriving DecidableEq, Repr

/-- `wire.TxIn`: the previous outpoint and the `uint32` sequence number (the
script fields play no role in the digest computation). -/
structure TxIn where
  previousOutPoint : OutPoint
  sequence : Nat
  deriving DecidableEq, Repr

/-- `wire.TxOut`: an `int64` value and the output script bytes. -/
structure TxOut where
  value : Int
  pkScript : List Nat
  deriving DecidableEq, Repr

/-- `wire.MsgTx`: `int32` version, inputs, outputs, `uint32` lock time. -/
structure MsgTx where
  version : Int
  txIn : List TxIn
  txOut : List TxOut
  lockTime : Nat
  deriving DecidableEq, Repr

/-- `txscript.TxSigHashes`: the three precomputed 32-byte midstate hashes. -/
structure TxSigHashes where
  hashPrevOuts : List Nat
  hashSequence : List Nat
  hashOutputs : List Nat
  deriving DecidableEq, Repr

/-- `SigHashForkID txscript.SigHashType = 0x40` (sign.go line 14). -/
def SigHashForkID : Nat := 0x40

/-- `sigHashMask = 0x1f` (sign.go line 15). -/
def sigHashMask : Nat := 0x1f

/-- `txscript.SigHashAll = 0x1`. -/
def SigHashAll : Nat := 0x1

/-- `txscript.SigHashNone = 0x2`. -/
def SigHashNone : Nat := 0x2

/-- `txscript.SigHashSingle = 0x3`. -/
def SigHashSingle : Nat := 0x3

/-- `txscript.SigHashAnyOneCanPay = 0x80`. -/
def SigHashAnyOneCanPay : Nat := 0x80

/-- Go conversion of a signed integer to `uint32` (two's-complement wraparound). -/
def intToUint32 (v : Int) : Nat := (v % (4294967296 : Int)).toNat

/-- Go conversion of a signed integer to `uint64` (two's-complement wraparound). -/
def intToUint64 (v : Int) : Nat := (v % (18446744073709551616 : Int)).toNat

/-- `binary.LittleEndian.PutUint16`: two little-endian bytes. -/
def putUint16LE (n : Nat) : List Nat :=
  [n % 256, n / 256 % 256]

/-- `binary.LittleEndian.PutUint32`: four little-endian bytes. -/
def putUint32LE (n : Nat) : List Nat :=
  [n % 256, n / 256 % 256, n / 65536 % 256, n / 16777216 % 256]

/-- `binary.LittleEndian.PutUint64`: eight little-endian bytes. -/
def putUint64LE (n : Nat) : List Nat :=
  [n % 256, n / 256 % 256, n / 65536 % 256, n / 16777216 % 256,
   n / 4294967296 % 256, n / 1099511627776 % 256,
   n / 281474976710656 % 256, n / 72057594037927936 % 256]

/-- `wire.WriteVarInt`: the canonical Bitcoin variable-length integer
(CompactSize) encoding of `n`. -/
def writeVarInt (n : Nat) : List Nat :=
  if n < 0xfd then [n]
  else if n ≤ 0xffff then 0xfd :: putUint16LE n
  else if n ≤ 0xffffffff then 0xfe :: putUint32LE n
  else 0xff :: putUint64LE n

/-- `wire.WriteVarBytes`: a var-int length followed by the bytes themselves. -/
def writeVarBytes (bs : List Nat) : List Nat :=
  writeVarInt bs.length ++ bs

/-- `wire.WriteTxOut`: the 8-byte little-endian value followed by the
var-int-length-prefixed output script (sign.go line 116). -/
def writeTxOut (o : TxOut) : List Nat :=
  putUint64LE (intToUint64 o.value) ++ writeVarBytes o.pkScript

/-- `var zeroHash chainhash.Hash`: 32 zero bytes (sign.go line 66). -/
def zeroHash : List Nat := List.replicate 32 0

/-- The 32 bytes written for the previous-outputs slot, sign.go lines 70-74:
the cached `HashPrevOuts` if `hashType&SigHashAnyOneCanPay == 0`, else
`zeroHash`. -/
def prevOutsSlot (sigHashes : TxSigHashes) (hashType : Nat) : List Nat :=
  if hashType &&& SigHashAnyOneCanPay = 0 then
    sigHashes.hashPrevOuts
  else
    zeroHash

/-- The 32 bytes written for the sequence-numbers slot, sign.go lines 79-85:
the cached `HashSequence` if `hashType&SigHashAnyOneCanPay == 0 &&
hashType&sigHashMask != SigHashSingle && hashType&sigHashMask != SigHashNone`,
else `zeroHash`. -/
def sequenceSlot (sigHashes : TxSigHashes) (hashType : Nat) : List Nat :=
  if hashType &&& SigHashAnyOneCanPay = 0 ∧
      hashType &&& sigHashMask ≠ SigHashSingle ∧
      hashType &&& sigHashMask ≠ SigHashNone then
    sigHashes.hashSequence
  else
    zeroHash

/-- The 32 bytes written for the outputs slot, sign.go lines 111-120:
the cached `HashOutputs` if `hashType&SigHashSingle != SigHashSingle &&
hashType&SigHashNone != SigHashNone`; else the double hash of the single
serialized output at `idx` if `hashType&sigHashMask == SigHashSingle &&
idx < len(tx.TxOut)`; else `zeroHash`. -/
def outputsSlot (dh : List Nat → List Nat) (sigHashes : TxSigHashes)
    (hashType : Nat) (tx : MsgTx) (idx : Nat) : List Nat :=
  if hashType &&& SigHashSingle ≠ SigHashSingle ∧
      hashType &&& SigHashNone ≠ SigHashNone then
    sigHashes.hashOutputs
  else if h : hashType &&& sigHashMask = SigHashSingle ∧ idx < tx.txOut.length then
    dh (writeTxOut (tx.txOut.get ⟨idx, h.2⟩))
  else
    zeroHash

/-- The preimage buffer `sigHash` accumulated by `calcBip143SignatureHash`
(sign.go lines 56-129) for input `txin` at position `idx`, written as the
concatenation of the successive `sigHash.Write` calls in source order. -/
def calcPreimage (dh : List Nat → List Nat) (subScript : List Nat)
    (sigHashes : TxSigHashes) (hashType : Nat) (tx : MsgTx)
    (txin : TxIn) (idx : Nat) (amt : Int) : List Nat :=
  putUint32LE (intToUint32 tx.version)
    ++ prevOutsSlot sigHashes hashType
    ++ sequenceSlot sigHashes hashType
    ++ txin.previousOutPoint.hash
    ++ putUint32LE txin.previousOutPoint.index
    ++ writeVarBytes subScript
    ++ putUint64LE (intToUint64 amt)
    ++ putUint32LE txin.sequence
    ++ outputsSlot dh sigHashes hashType tx idx
    ++ putUint32LE tx.lockTime
    ++ putUint32LE (hashType ||| SigHashForkID)

/-- `calcBip143SignatureHash` (sign.go lines 43-132). The bounds check
`idx > len(tx.TxIn)-1` prints a diagnostic and returns `nil`
(`GoResult.nilNoError`); a negative `idx` passes that check and the slice
access `tx.TxIn[idx]` panics (`GoResult.goPanic`); otherwise the function
returns the double hash of the accumulated preimage buffer. -/
def calcBip143SignatureHash (dh : List Nat → List Nat) (subScript : List Nat)
    (sigHashes : TxSigHashes) (hashType : Nat) (tx : MsgTx)
    (idx : Int) (amt : Int) : GoResult (List Nat) :=
  if idx > (tx.txIn.length : Int) - 1 then
    GoResult.nilNoError
  else
    match idx, tx.txIn.get? idx.toNat with
    | Int.negSucc _, _ => GoResult.goPanic
    | _, none => GoResult.goPanic
    | _, some txin =>
        GoResult.ok (dh (calcPreimage dh subScript sigHashes hashType tx txin idx.toNat amt))

/-- Modelled from the spec: `txscript.NewTxSigHashes` is an external
collaborator not present in this repository. Per the spec data model, the
cache holds the double hash of all input outpoints concatenated, of all input
sequence numbers concatenated, and of all serialized outputs concatenated. -/
def newTxSigHashes (dh : List Nat → List Nat) (tx : MsgTx) : TxSigHashes :=
  { hashPrevOuts :=
      dh ((tx.txIn.map (fun i =>
        i.previousOutPoint.hash ++ putUint32LE i.previousOutPoint.index)).flatten)
    hashSequence :=
      dh ((tx.txIn.map (fun i => putUint32LE i.sequence)).flatten)
    hashOutputs :=
      dh ((tx.txOut.map writeTxOut).flatten) }

/-- `RawTxInSignature` (sign.go lines 20-30). The digest from
`calcBip143SignatureHash` is passed straight to `key.Sign`; when the digest
computation returned `nil`, Go hands the `nil` slice (read as empty bytes) to
`Sign`. A signing failure becomes `(nil, error)`; success returns the
serialized signature with the single trailer byte
`byte(hashType|SigHashForkID)` appended. -/
def RawTxInSignature (dh : List Nat → List Nat)
    (sign : List Nat → Option (List Nat)) (tx : MsgTx) (idx : Int)
    (subScript : List Nat) (hashType : Nat) (amt : Int) : GoResult (List Nat) :=
  match calcBip143SignatureHash dh subScript (newTxSigHashes dh tx) hashType tx idx amt with
  | GoResult.goPanic => GoResult.goPanic
  | GoResult.err => GoResult.goPanic
  | GoResult.ok hash =>
      match sign hash with
      | none => GoResult.err
      | some sig => GoResult.ok (sig ++ [(hashType ||| SigHashForkID) % 256])
  | GoResult.nilNoError =>
      match sign [] with
      | none => GoResult.err
      | some sig => GoResult.ok (sig ++ [(hashType ||| SigHashForkID) % 256])

/-! ### State-passing variant for the frame property

`calcBip143SignatureHashSt` repeats the translation of sign.go lines 43-132
in explicit state-passing style: the caller-owned data (transaction, cache,
script code) lives in a `CalcEnv`, the local `sigHash` buffer is threaded as a
value, and every Go `Write` call appends via `bufWrite`. The function returns
the result together with the final environment. -/

/-- The caller-owned data reachable by reference from inside
`calcBip143SignatureHash`: the transaction, the hash cache and the script
code bytes. -/
structure CalcEnv where
  tx : MsgTx
  sigHashes : TxSigHashes
  subScript : List Nat
  deriving DecidableEq, Repr

/-- `sigHash.Write(bs)`: append bytes to the accumulating buffer. -/
def bufWrite (buf bs : List Nat) : List Nat := buf ++ bs

/-- State-passing translation of `calcBip143SignatureHash`, statement by
statement; only the local buffer is ever written, the environment is
threaded through to the result. -/
def calcBip143SignatureHashSt (dh : List Nat → List Nat) (hashType : Nat)
    (idx : Int) (amt : Int) (env : CalcEnv) : GoResult (List Nat) × CalcEnv :=
  if idx > (env.tx.txIn.length : Int) - 1 then
    (GoResult.nilNoError, env)
  else
    match idx, env.tx.txIn.get? idx.toNat with
    | Int.negSucc _, _ => (GoResult.goPanic, env)
    | _, none => (GoResult.goPanic, env)
    | _, some txin =>
        let buf1 := bufWrite [] (putUint32LE (intToUint32 env.tx.version))
        let buf2 :=
          if hashType &&& SigHashAnyOneCanPay = 0 then
            bufWrite buf1 env.sigHashes.hashPrevOuts
          else
            bufWrite buf1 zeroHash
        let buf3 :=
          if hashType &&& SigHashAnyOneCanPay = 0 ∧
              hashType &&& sigHashMask ≠ SigHashSingle ∧
              hashType &&& sigHashMask ≠ SigHashNone then
            bufWrite buf2 env.sigHashes.hashSequence
          else
            bufWrite buf2 zeroHash
        let buf4 := bufWrite buf3 txin.previousOutPoint.hash
        let buf5 := bufWrite buf4 (putUint32LE txin.previousOutPoint.index)
        let buf6 := bufWrite buf5 (writeVarBytes env.subScript)
        let buf7 := bufWrite buf6 (putUint64LE (intToUint64 amt))
        let buf8 := bufWrite buf7 (putUint32LE txin.sequence)
        let buf9 :=
          if hashType &&& SigHashSingle ≠ SigHashSingle ∧
              hashType &&& SigHashNone ≠ SigHashNone then
            bufWrite buf8 env.sigHashes.hashOutputs
          else if h : hashType &&& sigHashMask = SigHashSingle ∧
              idx.toNat < env.tx.txOut.length then
            bufWrite buf8 (dh (writeTxOut (env.tx.txOut.get ⟨idx.toNat, h.2⟩)))
          else
            bufWrite buf8 zeroHash
        let buf10 := bufWrite buf9 (putUint32LE env.tx.lockTime)
        let buf11 := bufWrite buf10 (putUint32LE (hashType ||| SigHashForkID))
        (GoResult.ok (dh buf11), env)

/-! ### Concrete fixtures used by the witness theorems -/

/-- A stand-in for the external double-hash collaborator: constant 32 bytes. -/
def dhW : List Nat → List Nat := fun _ => List.replicate 32 0

/-- A concrete hash cache with three distinct 32-byte values. -/
def cacheW : TxSigHashes :=
  { hashPrevOuts := List.replicate 32 1
    hashSequence := List.replicate 32 2
    hashOutputs := List.replicate 32 3 }

/-- The single input of the concrete transaction `txW`. -/
def txinW : TxIn :=
  { previousOutPoint := { hash := List.replicate 32 4, index := 9 }, sequence := 5 }

/-- A concrete one-input, one-output transaction. -/
def txW : MsgTx :=
  { version := 1
    txIn := [txinW]
    txOut := [{ value := 7, pkScript := [0x51] }]
    lockTime := 0 }

/-- A stand-in for the external signing collaborator that always succeeds,
echoing the digest as the serialized signature. -/
def signW : List Nat → Option (List Nat) := fun h => some h

/-! ### Helper lemmas -/

/-- `putUint32LE` always yields four bytes. -/
@[simp] theorem putUint32LE_length (n : Nat) : (putUint32LE n).length = 4 := rfl

/-- `putUint64LE` always yields eight bytes. -/
@[simp] theorem putUint64LE_length (n : Nat) : (putUint64LE n).length = 8 := rfl

/-- `zeroHash` is 32 bytes long. -/
@[simp] theorem zeroHash_length : zeroHash.length = 32 := rfl

/-- The previous-outputs slot is 32 bytes when the cache entry is. -/
theorem prevOutsSlot_length (sigHashes : TxSigHashes) (hashType : Nat)
    (hl : sigHashes.hashPrevOuts.length = 32) :
    (prevOutsSlot sigHashes hashType).length = 32 := by
  unfold prevOutsSlot
  split
  · exact hl
  · rfl

/-- The sequence-numbers slot is 32 bytes when the cache entry is. -/
theorem sequenceSlot_length (sigHashes : TxSigHashes) (hashType : Nat)
    (hl : sigHashes.hashSequence.length = 32) :
    (sequenceSlot sigHashes hashType).length = 32 := by
  unfold sequenceSlot
  split
  · exact hl
  · rfl

/-- The outputs slot is 32 bytes when the cache entry is and the double hash
always yields 32 bytes. -/
theorem outputsSlot_length (dh : List Nat → List Nat) (sigHashes : TxSigHashes)
    (hashType : Nat) (tx : MsgTx) (idx : Nat)
    (hl : sigHashes.hashOutputs.length = 32)
    (hdh : ∀ b, (dh b).length = 32) :
    (outputsSlot dh sigHashes hashType tx idx).length = 32 := by
  unfold outputsSlot
  split
  · exact hl
  split
  · exact hdh _
  · rfl

/-- Extracting the 32-byte window that sits right after a prefix of known
length in a concatenation. -/
theorem drop_take_middle (l1 l2 l3 : List Nat) (n : Nat) (h1 : l1.length = n)
    (h2 : l2.length = 32) : ((l1 ++ (l2 ++ l3)).drop n).take 32 = l2 := by
  rw [List.drop_left' h1, List.take_left' h2]

/-- Evaluation of `calcBip143SignatureHash` on a valid input index: the guard
is passed and the digest of the preimage for input `idx` is returned. -/
theorem calc_eval_of_valid (dh : List Nat → List Nat) (ss : List Nat)
    (cache : TxSigHashes) (ht : Nat) (tx : MsgTx) (amt : Int) (idx : Nat)
    (h : idx < tx.txIn.length) :
    calcBip143SignatureHash dh ss cache ht tx (idx : Int) amt =
      GoResult.ok (dh (calcPreimage dh ss cache ht tx (tx.txIn.get ⟨idx, h⟩) idx amt)) := by
  unfold calcBip143SignatureHash
  rw [if_neg (by omega : ¬ ((idx : Int) > (tx.txIn.length : Int) - 1))]
  have hg : tx.txIn.get? ((idx : Int)).toNat = some (tx.txIn.get ⟨idx, h⟩) := by
    simp [List.get?_eq_get, h]
  rw [hg]
  rfl

/-- The bounds check of sign.go lines 48-52: any index at or beyond the number
of inputs makes the function return the bare `nil` digest. -/
theorem calc_nil_of_ge (dh : List Nat → List Nat) (ss : List Nat)
    (cache : TxSigHashes) (ht : Nat) (tx : MsgTx) (amt : Int) (idx : Int)
    (h : (tx.txIn.length : Int) ≤ idx) :
    calcBip143SignatureHash dh ss cache ht tx idx amt = GoResult.nilNoError := by
  unfold calcBip143SignatureHash
  rw [if_pos (by omega)]

/-- Forcing the fork-identifier flag with a bitwise or leaves it set in the
full word. -/
theorem lor_forkid_bit (x : Nat) :
    (x ||| SigHashForkID) &&& SigHashForkID = SigHashForkID := by
  have h64 : SigHashForkID = 2 ^ 6 := by norm_num [SigHashForkID]
  rw [h64, Nat.and_two_pow, Nat.testBit_lor, Nat.testBit_two_pow_self]
  simp

/-- Forcing the fork-identifier flag survives the truncation to a single
byte. -/
theorem lor_forkid_bit_byte (x : Nat) :
    ((x ||| SigHashForkID) % 256) &&& SigHashForkID = SigHashForkID := by
  have h64 : SigHashForkID = 2 ^ 6 := by norm_num [SigHashForkID]
  have h256 : (256 : Nat) = 2 ^ 8 := by norm_num
  rw [h64, h256, Nat.and_two_pow, Nat.testBit_mod_two_pow, Nat.testBit_lor,
    Nat.testBit_two_pow_self]
  simp

/-- The guard of the outputs-slot branch at sign.go lines 111-112, stated
without bit masking: `ht&&&3 ≠ 3 ∧ ht&&&2 ≠ 2` holds exactly when the bit
`0x2` of `ht` is clear. -/
theorem outputs_guard_iff_bit_two_clear (ht : Nat) :
    (ht &&& SigHashSingle ≠ SigHashSingle ∧ ht &&& SigHashNone ≠ SigHashNone) ↔
      ht &&& SigHashNone = 0 := by
  show (ht &&& 3 ≠ 3 ∧ ht &&& 2 ≠ 2) ↔ ht &&& 2 = 0
  have h2 : ht &&& 2 = 0 ∨ ht &&& 2 = 2 := by
    have h := Nat.and_two_pow ht 1
    norm_num at h
    rw [h]
    cases ht.testBit 1 <;> simp
  constructor
  · rintro ⟨h3, hne⟩
    rcases h2 with h | h
    · exact h
    · exact absurd h hne
  · intro h0
    refine ⟨?_, by omega⟩
    intro h3
    have hh : ht &&& 3 &&& 2 = 3 &&& 2 := by rw [h3]
    rw [Nat.land_assoc] at hh
    have h32 : (3 : Nat) &&& 2 = 2 := by rfl
    rw [h32] at hh
    omega

/-! ### Claim theorems -/

/-- Claim C1 (code bug): for an input index at or past the end of the input
sequence, `calcBip143SignatureHash` does not signal an explicit error; sign.go
lines 48-52 print a diagnostic and return a bare `nil` digest, exactly the
silently degraded result the spec forbids. -/
theorem c1_invalid_index_returns_bare_nil (dh : List Nat → List Nat)
    (ss : List Nat) (cache : TxSigHashes) (ht : Nat) (tx : MsgTx) (amt : Int)
    (idx : Int) (h : (tx.txIn.length : Int) ≤ idx) :
    calcBip143SignatureHash dh ss cache ht tx idx amt = GoResult.nilNoError :=
  calc_nil_of_ge dh ss cache ht tx amt idx h

/-- Witness for C1: a one-input transaction probed at index 1 yields the bare
`nil` digest. -/
theorem c1_invalid_index_returns_bare_nil_witness :
    (txW.txIn.length : Int) ≤ 1 ∧
    calcBip143SignatureHash dhW [] cacheW 1 txW 1 0 = GoResult.nilNoError :=
  ⟨by decide, c1_invalid_index_returns_bare_nil dhW [] cacheW 1 txW 0 1 (by decide)⟩

/-- Claim C8: the bounds check rejects only indices past the upper end; every
negative index passes it, and the subsequent slice access `tx.TxIn[idx]` is
out of bounds (a runtime panic), with no error branch covering the lower
bound. -/
theorem c8_negative_index_passes_check_and_panics (dh : List Nat → List Nat)
    (ss : List Nat) (cache : TxSigHashes) (ht : Nat) (tx : MsgTx) (amt : Int)
    (idx : Int) (h : idx < 0) :
    ¬ (idx > (tx.txIn.length : Int) - 1) ∧
    ¬ (0 ≤ idx ∧ idx < (tx.txIn.length : Int)) ∧
    calcBip143SignatureHash dh ss cache ht tx idx amt = GoResult.goPanic := by
  refine ⟨by omega, by omega, ?_⟩
  unfold calcBip143SignatureHash
  rw [if_neg (by omega)]
  cases idx with
  | ofNat n => exact absurd h (not_lt.mpr (Int.ofNat_nonneg n))
  | negSucc m => cases hget : tx.txIn.get? (Int.negSucc m).toNat <;> rfl

/-- Witness for C8 at index `-1` on a one-input transaction. -/
theorem c8_negative_index_passes_check_and_panics_witness :
    (-1 : Int) < 0 ∧
    (¬ ((-1 : Int) > (txW.txIn.length : Int) - 1) ∧
     ¬ (0 ≤ (-1 : Int) ∧ (-1 : Int) < (txW.txIn.length : Int)) ∧
     calcBip143SignatureHash dhW [] cacheW 1 txW (-1) 0 = GoResult.goPanic) :=
  ⟨by decide, c8_negative_index_passes_check_and_panics dhW [] cacheW 1 txW 0 (-1) (by decide)⟩

/-- Claim C2: for a valid input index the returned digest is the double hash
of the preimage assembled in exactly the specified order: version, the
previous-outputs slot, the sequence-numbers slot, the spent outpoint (32-byte
hash then 4-byte little-endian index), the var-int-length-prefixed script
code, the 8-byte little-endian amount, the 4-byte little-endian input
sequence number, the outputs slot, the 4-byte little-endian lock time and the
4-byte little-endian sighash word. -/
theorem c2_digest_is_doubleHash_of_ordered_preimage (dh : List Nat → List Nat)
    (ss : List Nat) (cache : TxSigHashes) (ht : Nat) (tx : MsgTx) (amt : Int)
    (txin : TxIn) (idx : Nat) (h : tx.txIn.get? idx = some txin) :
    calcBip143SignatureHash dh ss cache ht tx (idx : Int) amt =
      GoResult.ok (dh (
        putUint32LE (intToUint32 tx.version)
        ++ prevOutsSlot cache ht
        ++ sequenceSlot cache ht
        ++ txin.previousOutPoint.hash
        ++ putUint32LE txin.previousOutPoint.index
        ++ (writeVarInt ss.length ++ ss)
        ++ putUint64LE (intToUint64 amt)
        ++ putUint32LE txin.sequence
        ++ outputsSlot dh cache ht tx idx
        ++ putUint32LE tx.lockTime
        ++ putUint32LE (ht ||| SigHashForkID))) := by
  obtain ⟨hlen, hget⟩ := List.get?_eq_some.mp h
  rw [calc_eval_of_valid dh ss cache ht tx amt idx hlen, hget]
  rfl

/-- Witness for C2 on the concrete one-input transaction. -/
theorem c2_digest_is_doubleHash_of_ordered_preimage_witness :
    txW.txIn.get? 0 = some txinW ∧
    calcBip143SignatureHash dhW [0x51] cacheW 1 txW (0 : Int) 0 =
      GoResult.ok (dhW (
        putUint32LE (intToUint32 txW.version)
        ++ prevOutsSlot cacheW 1
        ++ sequenceSlot cacheW 1
        ++ txinW.previousOutPoint.hash
        ++ putUint32LE txinW.previousOutPoint.index
        ++ (writeVarInt [0x51].length ++ [0x51])
        ++ putUint64LE (intToUint64 0)
        ++ putUint32LE txinW.sequence
        ++ outputsSlot dhW cacheW 1 txW 0
        ++ putUint32LE txW.lockTime
        ++ putUint32LE (1 ||| SigHashForkID))) :=
  ⟨by decide,
   c2_digest_is_doubleHash_of_ordered_preimage dhW [0x51] cacheW 1 txW 0 txinW 0 (by decide)⟩

/-- Claim C6: the 32 preimage bytes right after the 4-byte version are the
cached `HashPrevOuts` when ANYONECANPAY is not set, and 32 zero bytes when it
is set. -/
theorem c6_prevouts_slot_of_preimage (dh : List Nat → List Nat) (ss : List Nat)
    (cache : TxSigHashes) (ht : Nat) (tx : MsgTx) (txin : TxIn) (idx : Nat)
    (amt : Int) (hl : cache.hashPrevOuts.length = 32) :
    ((calcPreimage dh ss cache ht tx txin idx amt).drop 4).take 32 =
      (if ht &&& SigHashAnyOneCanPay = 0 then cache.hashPrevOuts
       else List.replicate 32 0) := by
  have hp : (prevOutsSlot cache ht).length = 32 := prevOutsSlot_length cache ht hl
  simp only [calcPreimage, List.append_assoc]
  rw [drop_take_middle _ _ _ 4 (putUint32LE_length _) hp]
  unfold prevOutsSlot zeroHash
  rfl

/-- Witness for C6 on the concrete fixtures. -/
theorem c6_prevouts_slot_of_preimage_witness :
    cacheW.hashPrevOuts.length = 32 ∧
    ((calcPreimage dhW [] cacheW 1 txW txinW 0 0).drop 4).take 32 =
      (if 1 &&& SigHashAnyOneCanPay = 0 then cacheW.hashPrevOuts
       else List.replicate 32 0) :=
  ⟨by decide, c6_prevouts_slot_of_preimage dhW [] cacheW 1 txW txinW 0 0 (by decide)⟩

/-- Claim C7: the 32 preimage bytes at offset 36 are the cached `HashSequence`
exactly when ANYONECANPAY is not set and the masked base type is neither
SINGLE nor NONE, and 32 zero bytes in every other case. -/
theorem c7_sequence_slot_of_preimage (dh : List Nat → List Nat) (ss : List Nat)
    (cache : TxSigHashes) (ht : Nat) (tx : MsgTx) (txin : TxIn) (idx : Nat)
    (amt : Int) (hlp : cache.hashPrevOuts.length = 32)
    (hls : cache.hashSequence.length = 32) :
    ((calcPreimage dh ss cache ht tx txin idx amt).drop 36).take 32 =
      (if ht &&& SigHashAnyOneCanPay = 0 ∧ ht &&& sigHashMask ≠ SigHashSingle ∧
          ht &&& sigHashMask ≠ SigHashNone then cache.hashSequence
       else List.replicate 32 0) := by
  have hp : (prevOutsSlot cache ht).length = 32 := prevOutsSlot_length cache ht hlp
  have hs : (sequenceSlot cache ht).length = 32 := sequenceSlot_length cache ht hls
  have hpre : (putUint32LE (intToUint32 tx.version) ++ prevOutsSlot cache ht).length = 36 := by
    rw [List.length_append, putUint32LE_length, hp]
  simp only [calcPreimage, List.append_assoc]
  rw [← List.append_assoc (putUint32LE (intToUint32 tx.version)) (prevOutsSlot cache ht)]
  rw [drop_take_middle _ _ _ 36 hpre hs]
  unfold sequenceSlot zeroHash
  rfl

/-- Witness for C7 on the concrete fixtures. -/
theorem c7_sequence_slot_of_preimage_witness :
    (cacheW.hashPrevOuts.length = 32 ∧ cacheW.hashSequence.length = 32) ∧
    ((calcPreimage dhW [] cacheW 1 txW txinW 0 0).drop 36).take 32 =
      (if 1 &&& SigHashAnyOneCanPay = 0 ∧ 1 &&& sigHashMask ≠ SigHashSingle ∧
          1 &&& sigHashMask ≠ SigHashNone then cacheW.hashSequence
       else List.replicate 32 0) :=
  ⟨⟨by decide, by decide⟩,
   c7_sequence_slot_of_preimage dhW [] cacheW 1 txW txinW 0 0 (by decide) (by decide)⟩

/-- Counterexample to claim C3 as stated: for sighash type 6 the masked base
type (low five bits) is neither SINGLE nor NONE, so the claim requires the
cached `HashOutputs` in the outputs slot, but the code writes 32 zero
bytes. -/
theorem c3_counterexample_base_six :
    (6 &&& sigHashMask ≠ SigHashSingle ∧ 6 &&& sigHashMask ≠ SigHashNone) ∧
    outputsSlot dhW cacheW 6 txW 0 = List.replicate 32 0 ∧
    outputsSlot dhW cacheW 6 txW 0 ≠ cacheW.hashOutputs := by decide

/-- Claim C3, amended: the outputs slot is the cached `HashOutputs` exactly
when bit `0x2` of the (unmasked) sighash type is clear — equivalently when
`hashType&SigHashSingle ≠ SigHashSingle` and
`hashType&SigHashNone ≠ SigHashNone` — the double hash of the single
serialized output at the input index when the masked base type is SINGLE and
that index is a valid output index, and 32 zero bytes otherwise (never an
error in the out-of-range SINGLE case). -/
theorem c3_outputs_slot_amended (dh : List Nat → List Nat) (cache : TxSigHashes)
    (ht : Nat) (tx : MsgTx) (idx : Nat) :
    ((ht &&& SigHashSingle ≠ SigHashSingle ∧ ht &&& SigHashNone ≠ SigHashNone) ↔
      ht &&& SigHashNone = 0) ∧
    outputsSlot dh cache ht tx idx =
      (if ht &&& SigHashNone = 0 then cache.hashOutputs
       else if h : ht &&& sigHashMask = SigHashSingle ∧ idx < tx.txOut.length then
         dh (writeTxOut (tx.txOut.get ⟨idx, h.2⟩))
       else List.replicate 32 0) := by
  refine ⟨outputs_guard_iff_bit_two_clear ht, ?_⟩
  unfold outputsSlot zeroHash
  by_cases h2 : ht &&& SigHashNone = 0
  · rw [if_pos h2, if_pos ((outputs_guard_iff_bit_two_clear ht).mpr h2)]
  · rw [if_neg h2, if_neg (fun hc => h2 ((outputs_guard_iff_bit_two_clear ht).mp hc))]

/-- Claim C4: the fork-identifier flag 0x40 is forced on in both places it
appears: the preimage ends with the 4-byte little-endian word
`hashType|SigHashForkID` (whose fork bit is set whatever the caller passed),
and any successfully produced signature ends with the single trailer byte
`byte(hashType|SigHashForkID)` (fork bit set there as well). -/
theorem c4_forkid_forced_in_preimage_and_trailer (dh : List Nat → List Nat)
    (sign : List Nat → Option (List Nat)) (ss ss2 : List Nat)
    (cache : TxSigHashes) (ht : Nat) (tx tx2 : MsgTx) (txin : TxIn)
    (idx : Nat) (jdx : Int) (amt amt2 : Int) :
    (∃ pre, calcPreimage dh ss cache ht tx txin idx amt =
        pre ++ putUint32LE (ht ||| SigHashForkID)) ∧
    (ht ||| SigHashForkID) &&& SigHashForkID = SigHashForkID ∧
    ((ht ||| SigHashForkID) % 256) &&& SigHashForkID = SigHashForkID ∧
    (∀ bs, RawTxInSignature dh sign tx2 jdx ss2 ht amt2 = GoResult.ok bs →
        ∃ sig, bs = sig ++ [(ht ||| SigHashForkID) % 256]) := by
  refine ⟨⟨_, rfl⟩, lor_forkid_bit ht, lor_forkid_bit_byte ht, ?_⟩
  intro bs hbs
  unfold RawTxInSignature at hbs
  split at hbs
  · exact absurd hbs (by simp)
  · exact absurd hbs (by simp)
  · split at hbs
    · exact absurd hbs (by simp)
    · rename_i sig hsig
      injection hbs with hb
      exact ⟨sig, hb.symm⟩
  · split at hbs
    · exact absurd hbs (by simp)
    · rename_i sig hsig
      injection hbs with hb
      exact ⟨sig, hb.symm⟩

/-- Witness for C4 on the concrete fixtures. -/
theorem c4_forkid_forced_in_preimage_and_trailer_witness :
    (∃ pre, calcPreimage dhW [] cacheW 1 txW txinW 0 0 =
        pre ++ putUint32LE (1 ||| SigHashForkID)) ∧
    (1 ||| SigHashForkID) &&& SigHashForkID = SigHashForkID ∧
    ((1 ||| SigHashForkID) % 256) &&& SigHashForkID = SigHashForkID ∧
    (∀ bs, RawTxInSignature dhW signW txW 0 [] 1 0 = GoResult.ok bs →
        ∃ sig, bs = sig ++ [(1 ||| SigHashForkID) % 256]) :=
  c4_forkid_forced_in_preimage_and_trailer dhW signW [] [] cacheW 1 txW txW txinW 0 0 0 0

/-- Claim C5 (code bug): a digest-computation failure does not propagate to
the caller of `RawTxInSignature`: for an out-of-range input index the bare
`nil` digest flows into the signing call, and when signing succeeds the
function returns a full signature instead of an error. -/
theorem c5_invalid_index_digest_signed_anyway (dh : List Nat → List Nat)
    (sign : List Nat → Option (List Nat)) (tx : MsgTx) (idx : Int)
    (ss : List Nat) (ht : Nat) (amt : Int) (sig : List Nat)
    (h : (tx.txIn.length : Int) ≤ idx) (hs : sign [] = some sig) :
    RawTxInSignature dh sign tx idx ss ht amt =
      GoResult.ok (sig ++ [(ht ||| SigHashForkID) % 256]) := by
  unfold RawTxInSignature
  rw [calc_nil_of_ge dh ss (newTxSigHashes dh tx) ht tx amt idx h, hs]

/-- Witness for C5: signing a one-input transaction at index 1 with an
always-succeeding signer returns a signature, not an error. -/
theorem c5_invalid_index_digest_signed_anyway_witness :
    ((txW.txIn.length : Int) ≤ 1 ∧ signW [] = some []) ∧
    RawTxInSignature dhW signW txW 1 [] 1 0 =
      GoResult.ok ([] ++ [(1 ||| SigHashForkID) % 256]) :=
  ⟨⟨by decide, rfl⟩,
   c5_invalid_index_digest_signed_anyway dhW signW txW 1 [] 1 0 [] (by decide) rfl⟩

/-- Claim C9: on a valid input index the digest computation is a pure
function: it returns a single 32-byte digest, and every evaluation at the
same arguments returns that same digest. -/
theorem c9_digest_deterministic (dh : List Nat → List Nat) (ss : List Nat)
    (cache : TxSigHashes) (ht : Nat) (tx : MsgTx) (amt : Int) (idx : Int)
    (h0 : 0 ≤ idx) (h1 : idx < (tx.txIn.length : Int))
    (hdh : ∀ b, (dh b).length = 32) :
    ∃ d, calcBip143SignatureHash dh ss cache ht tx idx amt = GoResult.ok d ∧
      d.length = 32 ∧
      ∀ d2, calcBip143SignatureHash dh ss cache ht tx idx amt = GoResult.ok d2 →
        d2 = d := by
  obtain ⟨n, rfl⟩ : ∃ n : Nat, idx = (n : Int) := ⟨idx.toNat, (Int.toNat_of_nonneg h0).symm⟩
  have hn : n < tx.txIn.length := by omega
  refine ⟨_, calc_eval_of_valid dh ss cache ht tx amt n hn, hdh _, ?_⟩
  intro d2 h2
  rw [calc_eval_of_valid dh ss cache ht tx amt n hn] at h2
  injection h2 with h2
  exact h2.symm

/-- Witness for C9 on the concrete fixtures. -/
theorem c9_digest_deterministic_witness :
    ((0 : Int) ≤ 0 ∧ (0 : Int) < (txW.txIn.length : Int)) ∧
    ∃ d, calcBip143SignatureHash dhW [] cacheW 1 txW 0 0 = GoResult.ok d ∧
      d.length = 32 ∧
      ∀ d2, calcBip143SignatureHash dhW [] cacheW 1 txW 0 0 = GoResult.ok d2 →
        d2 = d :=
  ⟨⟨by decide, by decide⟩,
   c9_digest_deterministic dhW [] cacheW 1 txW 0 0 (by decide) (by decide) (fun _ => rfl)⟩

/-- The state-passing translation returns the environment unchanged. -/
theorem calcSt_env_unchanged (dh : List Nat → List Nat) (ht : Nat)
    (idx amt : Int) (env : CalcEnv) :
    (calcBip143SignatureHashSt dh ht idx amt env).2 = env := by
  unfold calcBip143SignatureHashSt
  split
  · rfl
  · split <;> rfl

/-- Claim C10: the digest computation never mutates its inputs: after any
call of the state-passing translation the transaction, the three cached
hashes and the script code are unchanged, and its result agrees with the
functional translation. -/
theorem c10_no_mutation (dh : List Nat → List Nat) (ht : Nat) (idx amt : Int)
    (env : CalcEnv) :
    (calcBip143SignatureHashSt dh ht idx amt env).2.tx = env.tx ∧
    (calcBip143SignatureHashSt dh ht idx amt env).2.sigHashes = env.sigHashes ∧
    (calcBip143SignatureHashSt dh ht idx amt env).2.subScript = env.subScript ∧
    (calcBip143SignatureHashSt dh ht idx amt env).1 =
      calcBip143SignatureHash dh env.subScript env.sigHashes ht env.tx idx amt := by
  refine ⟨by rw [calcSt_env_unchanged], by rw [calcSt_env_unchanged],
    by rw [calcSt_env_unchanged], ?_⟩
  by_cases hg : idx > (env.tx.txIn.length : Int) - 1
  · unfold calcBip143SignatureHashSt calcBip143SignatureHash
    rw [if_pos hg, if_pos hg]
  · unfold calcBip143SignatureHashSt calcBip143SignatureHash
    rw [if_neg hg, if_neg hg]
    cases idx with
    | negSucc m =>
        cases hget : env.tx.txIn.get? (Int.negSucc m).toNat <;> rfl
    | ofNat n =>
        cases hget : env.tx.txIn.get? (Int.ofNat n).toNat with
        | none => rfl
        | some txin =>
            simp only [bufWrite, List.nil_append, calcPreimage, prevOutsSlot,
              sequenceSlot, outputsSlot]
            split_ifs <;> simp [List.append_assoc, zeroHash]
